import Mathlib

/-!
Shallow embedding of the compliance-transaction CRUD service in
`src/app/main.py` (Flask handlers over an in-memory dict store), together
with proofs of the specification claims about it.

Python dicts are modelled as association lists that keep insertion order:
inserting an existing key replaces its value in place, inserting a fresh
key appends at the end, and lookup returns the first (unique) match.
JSON values are modelled by the inductive `JVal`; machine floats appearing
in the report arithmetic are modelled by exact rationals.
-/

set_option maxHeartbeats 1000000

namespace ComplianceApp

/-- A JSON value, as parsed from a request body or produced in a response. -/
inductive JVal where
  | null : JVal
  | bool : Bool → JVal
  | num : ℚ → JVal
  | str : String → JVal
  | arr : List JVal → JVal
  | obj : List (String × JVal) → JVal

mutual

/-- Decidable equality on `JVal`, by nested structural recursion. -/
def JVal.decEq : (a b : JVal) → Decidable (a = b)
  | .null, .null => .isTrue rfl
  | .bool a, .bool b =>
    if h : a = b then .isTrue (h ▸ rfl) else .isFalse (fun hh => by cases hh; exact h rfl)
  | .num a, .num b =>
    if h : a = b then .isTrue (h ▸ rfl) else .isFalse (fun hh => by cases hh; exact h rfl)
  | .str a, .str b =>
    if h : a = b then .isTrue (h ▸ rfl) else .isFalse (fun hh => by cases hh; exact h rfl)
  | .arr xs, .arr ys =>
    match JVal.decEqL xs ys with
    | .isTrue h => .isTrue (h ▸ rfl)
    | .isFalse h => .isFalse (fun hh => by cases hh; exact h rfl)
  | .obj xs, .obj ys =>
    match JVal.decEqO xs ys with
    | .isTrue h => .isTrue (h ▸ rfl)
    | .isFalse h => .isFalse (fun hh => by cases hh; exact h rfl)
  | .null, .bool _ | .null, .num _ | .null, .str _ | .null, .arr _ | .null, .obj _
  | .bool _, .null | .bool _, .num _ | .bool _, .str _ | .bool _, .arr _ | .bool _, .obj _
  | .num _, .null | .num _, .bool _ | .num _, .str _ | .num _, .arr _ | .num _, .obj _
  | .str _, .null | .str _, .bool _ | .str _, .num _ | .str _, .arr _ | .str _, .obj _
  | .arr _, .null | .arr _, .bool _ | .arr _, .num _ | .arr _, .str _ | .arr _, .obj _
  | .obj _, .null | .obj _, .bool _ | .obj _, .num _ | .obj _, .str _ | .obj _, .arr _ =>
    .isFalse nofun

/-- Decidable equality of `JVal` lists. -/
def JVal.decEqL : (xs ys : List JVal) → Decidable (xs = ys)
  | [], [] => .isTrue rfl
  | x :: xs, y :: ys =>
    match JVal.decEq x y with
    | .isFalse h => .isFalse (fun hh => by cases hh; exact h rfl)
    | .isTrue h1 =>
      match JVal.decEqL xs ys with
      | .isTrue h2 => .isTrue (by rw [h1, h2])
      | .isFalse h2 => .isFalse (fun hh => by cases hh; exact h2 rfl)
  | [], _ :: _ => .isFalse nofun
  | _ :: _, [] => .isFalse nofun

/-- Decidable equality of string-keyed `JVal` association lists. -/
def JVal.decEqO : (xs ys : List (String × JVal)) → Decidable (xs = ys)
  | [], [] => .isTrue rfl
  | (k, x) :: xs, (l, y) :: ys =>
    if hk : k = l then
      match JVal.decEq x y with
      | .isFalse h => .isFalse (fun hh => by cases hh; exact h rfl)
      | .isTrue h1 =>
        match JVal.decEqO xs ys with
        | .isTrue h2 => .isTrue (by rw [hk, h1, h2])
        | .isFalse h2 => .isFalse (fun hh => by cases hh; exact h2 rfl)
    else .isFalse (fun hh => by cases hh; exact hk rfl)
  | [], _ :: _ => .isFalse nofun
  | _ :: _, [] => .isFalse nofun

end

instance : DecidableEq JVal := JVal.decEq

/-- First-match lookup in an association list (Python `d[k]` / `d.get(k)`). -/
def dlookup {κ α : Type} [DecidableEq κ] (k : κ) : List (κ × α) → Option α
  | [] => none
  | (k', v) :: rest => if k' = k then some v else dlookup k rest

/-- Python `k in d`. -/
def dcontains {κ α : Type} [DecidableEq κ] (k : κ) (d : List (κ × α)) : Bool :=
  (dlookup k d).isSome

/-- Python `d[k] = v`: replace in place when the key is present, append otherwise. -/
def dinsert {κ α : Type} [DecidableEq κ] (k : κ) (v : α) : List (κ × α) → List (κ × α)
  | [] => [(k, v)]
  | (k', v') :: rest => if k' = k then (k, v) :: rest else (k', v') :: dinsert k v rest

/-- Python `del d[k]` (for dicts the key occurs at most once). -/
def derase {κ α : Type} [DecidableEq κ] (k : κ) : List (κ × α) → List (κ × α)
  | [] => []
  | (k', v') :: rest => if k' = k then rest else (k', v') :: derase k rest

/-- Python `d.get(k, default)`. -/
def dget {κ α : Type} [DecidableEq κ] (k : κ) (default : α) (d : List (κ × α)) : α :=
  (dlookup k d).getD default

/-- Python `d.values()`. -/
def dvalues {κ α : Type} : List (κ × α) → List α :=
  List.map Prod.snd

/-- A transaction record: a JSON object, field name to value. -/
abbrev TxRecord := List (String × JVal)

/-- `compliance_data`: the in-memory store, keyed by the value of the
payload's `transaction_id` field. -/
abbrev Store := List (JVal × TxRecord)

/-- An HTTP response: status code and JSON body. -/
structure Response where
  status : Nat
  body : JVal
  deriving DecidableEq

/-- `required_fields` in `validate_compliance_data`. -/
def required_fields : List String :=
  ["transaction_id", "amount", "timestamp", "status"]

/-- `validate_compliance_data(data)`: all required fields present (presence
only; values are never inspected). -/
def validate_compliance_data (data : TxRecord) : Bool :=
  required_fields.all (fun field => dcontains field data)

/-- `create_transaction`: validate, then store `{**data, "created_at": ...,
"last_modified": ...}` keyed by `data["transaction_id"]`.  The two
`datetime.now()` calls are the parameters `createdAt` and `lastModified`.
The lookup's `.getD .null` is never hit: validation guarantees the
`transaction_id` key is present. -/
def create_transaction (store : Store) (data : TxRecord)
    (createdAt lastModified : String) : Store × Response :=
  if validate_compliance_data data then
    let transaction_id := (dlookup "transaction_id" data).getD JVal.null
    let record :=
      dinsert "last_modified" (.str lastModified)
        (dinsert "created_at" (.str createdAt) data)
    (dinsert transaction_id record store,
      ⟨201, .obj [("message", .str "Transaction created"), ("id", transaction_id)]⟩)
  else
    (store, ⟨400, .obj [("error", .str "Invalid data format")]⟩)

/-- `get_transaction`: look up by id; 404 when absent, else the stored
record verbatim. -/
def get_transaction (store : Store) (transaction_id : JVal) : Store × Response :=
  match dlookup transaction_id store with
  | none => (store, ⟨404, .obj [("error", .str "Transaction not found")]⟩)
  | some record => (store, ⟨200, .obj record⟩)

/-- `list_transactions`: count and all stored records. -/
def list_transactions (store : Store) : Store × Response :=
  (store,
    ⟨200, .obj [("count", .num store.length),
                ("transactions", .arr ((dvalues store).map .obj))]⟩)

/-- `delete_transaction`: remove when present (200), else 404. -/
def delete_transaction (store : Store) (transaction_id : JVal) : Store × Response :=
  if dcontains transaction_id store then
    (derase transaction_id store, ⟨200, .obj [("message", .str "Transaction deleted")]⟩)
  else
    (store, ⟨404, .obj [("error", .str "Transaction not found")]⟩)

/-- `transaction.get("status", "unknown")` inside the report loop. -/
def status_of (t : TxRecord) : JVal :=
  dget "status" (.str "unknown") t

/-- The `status_breakdown` accumulation loop of `compliance_report`:
`status_breakdown[status] = status_breakdown.get(status, 0) + 1` over all
stored records. -/
def status_breakdown (store : Store) : List (JVal × Nat) :=
  (dvalues store).foldl
    (fun bd t => dinsert (status_of t) (dget (status_of t) 0 bd + 1) bd) []

/-- `status_breakdown.get("compliant", 0) / max(total_transactions, 1) * 100`. -/
def compliance_rate (store : Store) : ℚ :=
  ((dget (JVal.str "compliant") 0 (status_breakdown store) : ℕ) : ℚ)
    / ((max store.length 1 : ℕ) : ℚ) * 100

/-- The `report` dict assembled by `compliance_report`. -/
structure Report where
  report_date : String
  total_transactions : Nat
  status_breakdown : List (JVal × Nat)
  compliance_rate : ℚ
  deriving DecidableEq

/-- `compliance_report`: always 200, with the aggregate report.
`datetime.now().isoformat()` is the parameter `reportDate`. -/
def compliance_report (store : Store) (reportDate : String) :
    Store × Nat × Report :=
  (store, 200,
    { report_date := reportDate
      total_transactions := store.length
      status_breakdown := status_breakdown store
      compliance_rate := compliance_rate store })

/-! ### Dictionary lemmas -/

theorem dlookup_dinsert_self {κ α : Type} [DecidableEq κ] (k : κ) (v : α)
    (d : List (κ × α)) : dlookup k (dinsert k v d) = some v := by
  induction d with
  | nil => simp [dinsert, dlookup]
  | cons p rest ih =>
    obtain ⟨k', v'⟩ := p
    by_cases h : k' = k
    · subst h
      simp [dinsert, dlookup]
    · simp [dinsert, dlookup, h, ih]

theorem dlookup_dinsert_ne {κ α : Type} [DecidableEq κ] {k k' : κ} (v : α)
    (d : List (κ × α)) (hne : k' ≠ k) :
    dlookup k' (dinsert k v d) = dlookup k' d := by
  have hne' : ¬(k = k') := fun h => hne h.symm
  induction d with
  | nil => simp [dinsert, dlookup, hne']
  | cons p rest ih =>
    obtain ⟨k₀, v₀⟩ := p
    by_cases h : k₀ = k
    · subst h
      simp [dinsert, dlookup, hne']
    · simp only [dinsert, if_neg h, dlookup]
      by_cases h' : k₀ = k'
      · simp [h']
      · simp [h', ih]

theorem dget_dinsert {κ α : Type} [DecidableEq κ] (k k' : κ) (v dflt : α)
    (d : List (κ × α)) :
    dget k' dflt (dinsert k v d) = if k' = k then v else dget k' dflt d := by
  by_cases h : k' = k
  · subst h
    simp [dget, dlookup_dinsert_self]
  · simp [dget, h, dlookup_dinsert_ne v d h]

theorem dlookup_derase_ne {κ α : Type} [DecidableEq κ] {k k' : κ}
    (d : List (κ × α)) (hne : k' ≠ k) :
    dlookup k' (derase k d) = dlookup k' d := by
  have hne' : ¬(k = k') := fun h => hne h.symm
  induction d with
  | nil => simp [derase]
  | cons p rest ih =>
    obtain ⟨k₀, v₀⟩ := p
    by_cases h : k₀ = k
    · subst h
      simp [derase, dlookup, hne']
    · simp only [derase, if_neg h, dlookup]
      by_cases h' : k₀ = k'
      · simp [h']
      · simp [h', ih]

theorem dlookup_mem_keys {κ α : Type} [DecidableEq κ] {k : κ} {d : List (κ × α)}
    {v : α} (h : dlookup k d = some v) : k ∈ d.map Prod.fst := by
  induction d with
  | nil => simp [dlookup] at h
  | cons p rest ih =>
    obtain ⟨k₀, v₀⟩ := p
    simp only [dlookup] at h
    by_cases h₀ : k₀ = k
    · simp [h₀]
    · simp only [if_neg h₀] at h
      simp [ih h]

theorem dlookup_derase_self {κ α : Type} [DecidableEq κ] (k : κ)
    (d : List (κ × α)) (hnd : (d.map Prod.fst).Nodup) :
    dlookup k (derase k d) = none := by
  induction d with
  | nil => rfl
  | cons p rest ih =>
    obtain ⟨k₀, v₀⟩ := p
    simp only [List.map_cons, List.nodup_cons] at hnd
    by_cases h : k₀ = k
    · subst h
      simp only [derase, if_pos rfl]
      cases hres : dlookup k₀ rest with
      | none => exact hres
      | some r => exact absurd (dlookup_mem_keys hres) hnd.1
    · simp only [derase, if_neg h, dlookup, if_neg h]
      exact ih hnd.2

theorem length_dinsert_of_contains {κ α : Type} [DecidableEq κ] (k : κ) (v : α)
    (d : List (κ × α)) (hmem : dcontains k d = true) :
    (dinsert k v d).length = d.length := by
  induction d with
  | nil => simp [dcontains, dlookup] at hmem
  | cons p rest ih =>
    obtain ⟨k₀, v₀⟩ := p
    by_cases h : k₀ = k
    · simp [dinsert, h]
    · simp only [dcontains, dlookup, if_neg h] at hmem
      simp [dinsert, if_neg h, ih hmem]

/-! ### Status breakdown lemmas -/

/-- Sum of the counts in a breakdown dictionary. -/
def sumVals (bd : List (JVal × Nat)) : Nat :=
  (bd.map Prod.snd).sum

/-- One loop iteration of the report: bump the bucket of record `t`. -/
def bdStep (bd : List (JVal × Nat)) (t : TxRecord) : List (JVal × Nat) :=
  dinsert (status_of t) (dget (status_of t) 0 bd + 1) bd

theorem status_breakdown_eq_foldl (store : Store) :
    status_breakdown store = (dvalues store).foldl bdStep [] := rfl

theorem sumVals_bdStep (bd : List (JVal × Nat)) (t : TxRecord) :
    sumVals (bdStep bd t) = sumVals bd + 1 := by
  unfold bdStep
  generalize status_of t = s
  induction bd with
  | nil => simp [dinsert, sumVals, dget, dlookup]
  | cons p rest ih =>
    obtain ⟨k₀, n₀⟩ := p
    by_cases h : k₀ = s
    · subst h
      simp [dinsert, sumVals, dget, dlookup]
      omega
    · simp only [dinsert, if_neg h, sumVals, List.map_cons, List.sum_cons,
        dget, dlookup, if_neg h] at *
      omega

theorem dget_bdStep (bd : List (JVal × Nat)) (t : TxRecord) (v : JVal) :
    dget v 0 (bdStep bd t) =
      dget v 0 bd + (if status_of t = v then 1 else 0) := by
  unfold bdStep
  rw [dget_dinsert]
  by_cases h : v = status_of t
  · simp [h]
  · simp [h, Ne.symm h]

theorem dget_foldl_bdStep (ts : List TxRecord) (v : JVal) :
    ∀ bd : List (JVal × Nat),
      dget v 0 (ts.foldl bdStep bd) =
        dget v 0 bd + (ts.filter (fun t => status_of t = v)).length := by
  induction ts with
  | nil => simp
  | cons t rest ih =>
    intro bd
    simp only [List.foldl_cons, ih, dget_bdStep, List.filter_cons]
    by_cases h : status_of t = v
    · simp [h]
      omega
    · simp [h]

theorem sumVals_foldl_bdStep (ts : List TxRecord) :
    ∀ bd : List (JVal × Nat),
      sumVals (ts.foldl bdStep bd) = sumVals bd + ts.length := by
  induction ts with
  | nil => simp
  | cons t rest ih =>
    intro bd
    simp only [List.foldl_cons, ih, sumVals_bdStep, List.length_cons]
    omega

theorem dget_status_breakdown (store : Store) (v : JVal) :
    dget v 0 (status_breakdown store) =
      ((dvalues store).filter (fun t => status_of t = v)).length := by
  rw [status_breakdown_eq_foldl, dget_foldl_bdStep]
  simp [dget, dlookup]

theorem sumVals_status_breakdown (store : Store) :
    sumVals (status_breakdown store) = store.length := by
  rw [status_breakdown_eq_foldl, sumVals_foldl_bdStep]
  simp [sumVals, dvalues]

/-! ### Claim-side (specification-worded) definitions -/

/-- Stated from the claim wording: the number of stored records whose
`status` field equals `"compliant"`. -/
def spec_compliantCount (store : Store) : Nat :=
  ((dvalues store).filter
    (fun t => dlookup "status" t = some (JVal.str "compliant"))).length

/-- Stated from the claim wording: the status value a record is counted
under — its `status` field when present, `"unknown"` otherwise. -/
def spec_bucketOf (t : TxRecord) : JVal :=
  match dlookup "status" t with
  | some v => v
  | none => JVal.str "unknown"

/-- Stated from the claim wording: the number of stored records counted
under status value `v`. -/
def spec_statusCount (v : JVal) (store : Store) : Nat :=
  ((dvalues store).filter (fun t => spec_bucketOf t = v)).length

theorem spec_bucketOf_eq_status_of (t : TxRecord) :
    spec_bucketOf t = status_of t := by
  unfold spec_bucketOf status_of dget
  cases dlookup "status" t <;> rfl

theorem status_of_eq_compliant (t : TxRecord) :
    (status_of t = JVal.str "compliant") ↔
      dlookup "status" t = some (JVal.str "compliant") := by
  unfold status_of dget
  cases h : dlookup "status" t with
  | none => simp
  | some w => simp

/-- `validate_compliance_data` unfolded to the four field-presence checks. -/
theorem validate_iff (data : TxRecord) :
    validate_compliance_data data = true ↔
      (dcontains "transaction_id" data = true ∧ dcontains "amount" data = true ∧
       dcontains "timestamp" data = true ∧ dcontains "status" data = true) := by
  simp [validate_compliance_data, required_fields]

/-! ### Claim theorems -/

/-- C1: for every store, the report's `compliance_rate` equals
`100 * (count of stored records whose status field equals "compliant")
/ max(total, 1)` where `total` is the number of stored records; and on the
empty store the report returns `total_transactions = 0` and
`compliance_rate = 0`, with no division by zero. -/
theorem claim_C1_compliance_rate (store : Store) (reportDate : String) :
    (compliance_report store reportDate).2.2.compliance_rate =
      100 * (spec_compliantCount store : ℚ) / ((max store.length 1 : ℕ) : ℚ) ∧
    (compliance_report [] reportDate).2.2.total_transactions = 0 ∧
    (compliance_report [] reportDate).2.2.compliance_rate = 0 := by
  refine ⟨?_, rfl, ?_⟩
  · show compliance_rate store = _
    unfold compliance_rate spec_compliantCount
    rw [dget_status_breakdown]
    have hfilter : (dvalues store).filter (fun t => status_of t = JVal.str "compliant")
        = (dvalues store).filter
            (fun t => dlookup "status" t = some (JVal.str "compliant")) := by
      apply List.filter_congr
      intro t _
      exact decide_eq_decide.mpr (status_of_eq_compliant t)
    rw [hfilter]
    ring
  · show compliance_rate [] = 0
    unfold compliance_rate
    rw [dget_status_breakdown]
    simp [dvalues]

/-- C2: for every store, the report's `status_breakdown` maps each status
value to the exact count of records counted under it (records lacking a
`status` field are bucketed under `"unknown"`), and the breakdown counts
sum to `total_transactions`. -/
theorem claim_C2_status_breakdown (store : Store) (reportDate : String) :
    (∀ v : JVal,
      dget v 0 ((compliance_report store reportDate).2.2.status_breakdown) =
        spec_statusCount v store) ∧
    sumVals ((compliance_report store reportDate).2.2.status_breakdown) =
      (compliance_report store reportDate).2.2.total_transactions := by
  constructor
  · intro v
    show dget v 0 (status_breakdown store) = _
    rw [dget_status_breakdown]
    unfold spec_statusCount
    congr 1
    apply List.filter_congr
    intro t _
    exact decide_eq_decide.mpr (by rw [spec_bucketOf_eq_status_of])
  · exact sumVals_status_breakdown store

/-- The successful branch of `create_transaction`, made explicit. -/
theorem create_transaction_valid (store : Store) (data : TxRecord)
    (createdAt lastModified : String) (tid : JVal)
    (hval : validate_compliance_data data = true)
    (htid : dlookup "transaction_id" data = some tid) :
    create_transaction store data createdAt lastModified =
      (dinsert tid
        (dinsert "last_modified" (.str lastModified)
          (dinsert "created_at" (.str createdAt) data)) store,
       ⟨201, .obj [("message", .str "Transaction created"), ("id", tid)]⟩) := by
  simp [create_transaction, hval, htid]

/-- C3: `create_transaction` returns 400 with body
`{"error": "Invalid data format"}` exactly when one of the four required
keys is absent from the payload, and in that case the store is unchanged. -/
theorem claim_C3_validation (store : Store) (data : TxRecord)
    (createdAt lastModified : String) :
    ((create_transaction store data createdAt lastModified).2 =
        ⟨400, .obj [("error", .str "Invalid data format")]⟩ ↔
      (dcontains "transaction_id" data = false ∨ dcontains "amount" data = false ∨
       dcontains "timestamp" data = false ∨ dcontains "status" data = false)) ∧
    ((create_transaction store data createdAt lastModified).2.status = 400 →
      (create_transaction store data createdAt lastModified).1 = store) := by
  by_cases hval : validate_compliance_data data = true
  · obtain ⟨h1, h2, h3, h4⟩ := (validate_iff data).1 hval
    obtain ⟨tid, htid⟩ : ∃ tid, dlookup "transaction_id" data = some tid := by
      cases hres : dlookup "transaction_id" data with
      | none => rw [dcontains, hres] at h1; cases h1
      | some w => exact ⟨w, rfl⟩
    rw [create_transaction_valid store data createdAt lastModified tid hval htid]
    constructor
    · simp [h1, h2, h3, h4]
    · intro h
      cases h
  · have hv' : validate_compliance_data data = false := by
      cases hb : validate_compliance_data data with
      | false => rfl
      | true => exact absurd hb hval
    have hresp : create_transaction store data createdAt lastModified =
        (store, ⟨400, .obj [("error", .str "Invalid data format")]⟩) := by
      simp [create_transaction, hv']
    rw [hresp]
    constructor
    · rw [validate_iff] at hval
      simp only [true_iff]
      by_cases c1 : dcontains "transaction_id" data = true
      · by_cases c2 : dcontains "amount" data = true
        · by_cases c3 : dcontains "timestamp" data = true
          · by_cases c4 : dcontains "status" data = true
            · exact absurd ⟨c1, c2, c3, c4⟩ hval
            · exact Or.inr (Or.inr (Or.inr (Bool.not_eq_true _ ▸ c4)))
          · exact Or.inr (Or.inr (Or.inl (Bool.not_eq_true _ ▸ c3)))
        · exact Or.inr (Or.inl (Bool.not_eq_true _ ▸ c2))
      · exact Or.inl (Bool.not_eq_true _ ▸ c1)
    · intro _
      rfl

/-- C4: creating with all four required fields returns 201 with `id` equal
to the submitted `transaction_id`, and a subsequent `get_transaction` on
that id returns 200 with a record whose `transaction_id` and `amount`
match the submission. -/
theorem claim_C4_create_then_get (store : Store) (data : TxRecord)
    (createdAt lastModified : String) (tid : JVal)
    (hval : validate_compliance_data data = true)
    (htid : dlookup "transaction_id" data = some tid) :
    (create_transaction store data createdAt lastModified).2 =
      ⟨201, .obj [("message", .str "Transaction created"), ("id", tid)]⟩ ∧
    ∃ r : TxRecord,
      get_transaction (create_transaction store data createdAt lastModified).1 tid =
        ((create_transaction store data createdAt lastModified).1, ⟨200, .obj r⟩) ∧
      dlookup "transaction_id" r = some tid ∧
      dlookup "amount" r = dlookup "amount" data := by
  rw [create_transaction_valid store data createdAt lastModified tid hval htid]
  refine ⟨rfl,
    dinsert "last_modified" (.str lastModified) (dinsert "created_at" (.str createdAt) data),
    ?_, ?_, ?_⟩
  · unfold get_transaction
    rw [dlookup_dinsert_self]
  · rw [dlookup_dinsert_ne _ _ (by decide), dlookup_dinsert_ne _ _ (by decide)]
    exact htid
  · rw [dlookup_dinsert_ne _ _ (by decide), dlookup_dinsert_ne _ _ (by decide)]

/-- C5: `get_transaction` returns 404 with body
`{"error": "Transaction not found"}` exactly when the id is absent,
otherwise 200 with the stored record verbatim; the store is unchanged. -/
theorem claim_C5_get (store : Store) (tid : JVal) :
    (get_transaction store tid).1 = store ∧
    ((get_transaction store tid).2 =
        ⟨404, .obj [("error", .str "Transaction not found")]⟩ ↔
      dlookup tid store = none) ∧
    ∀ r : TxRecord, dlookup tid store = some r →
      (get_transaction store tid).2 = ⟨200, .obj r⟩ := by
  unfold get_transaction
  cases h : dlookup tid store with
  | none => simp
  | some r => simp

/-- C6: deleting a present id returns 200 and removes exactly that record,
leaving every other record unchanged; deleting an absent id returns 404
and leaves the store unchanged. -/
theorem claim_C6_delete (store : Store) (tid : JVal)
    (hnd : (store.map Prod.fst).Nodup) :
    (dcontains tid store = true →
      delete_transaction store tid =
        (derase tid store, ⟨200, .obj [("message", .str "Transaction deleted")]⟩) ∧
      (get_transaction (derase tid store) tid).2 =
        ⟨404, .obj [("error", .str "Transaction not found")]⟩ ∧
      ∀ k : JVal, k ≠ tid → dlookup k (derase tid store) = dlookup k store) ∧
    (dcontains tid store = false →
      delete_transaction store tid =
        (store, ⟨404, .obj [("error", .str "Transaction not found")]⟩)) := by
  constructor
  · intro hmem
    refine ⟨by simp [delete_transaction, hmem], ?_, ?_⟩
    · unfold get_transaction
      rw [dlookup_derase_self tid store hnd]
    · intro k hk
      exact dlookup_derase_ne store hk
  · intro hmem
    simp [delete_transaction, hmem]

/-- C7: `list_transactions` always returns 200 with `count` equal to the
number of stored records and `transactions` exactly the stored records,
and leaves the store unchanged. -/
theorem claim_C7_list (store : Store) :
    list_transactions store =
      (store, ⟨200, .obj [("count", .num store.length),
        ("transactions", .arr ((dvalues store).map JVal.obj))]⟩) ∧
    (dvalues store).length = store.length :=
  ⟨rfl, by simp [dvalues]⟩

/-- A valid payload that also supplies its own `created_at` field. -/
def c8data : TxRecord :=
  [("transaction_id", .str "TXN008"), ("amount", .num 42),
   ("timestamp", .str "2025-01-29T10:00:00"), ("status", .str "compliant"),
   ("created_at", .str "caller-chosen")]

/-- The store after creating `c8data` on the empty store. -/
def c8store : Store :=
  (create_transaction [] c8data "2025-06-01T00:00:00" "2025-06-01T00:00:01").1

/-- C8 fails as stated: `created_at` is a caller-supplied key outside the
four required fields, yet the stored record does not map it to the
submitted value — the server timestamp overwrites it. -/
theorem claim_C8_counterexample :
    validate_compliance_data c8data = true ∧
    "created_at" ∉ required_fields ∧
    dlookup "created_at" c8data = some (.str "caller-chosen") ∧
    (dlookup (JVal.str "TXN008") c8store).map (dlookup "created_at") ≠
      some (dlookup "created_at" c8data) := by
  decide

/-- C8 amended: every caller-supplied field other than `created_at` and
`last_modified` is preserved verbatim in the stored record; caller-supplied
`created_at`/`last_modified` values are overwritten by the server
timestamps. -/
theorem claim_C8_extra_fields (store : Store) (data : TxRecord)
    (createdAt lastModified : String) (tid : JVal) (k : String)
    (hval : validate_compliance_data data = true)
    (htid : dlookup "transaction_id" data = some tid)
    (hca : k ≠ "created_at") (hlm : k ≠ "last_modified") :
    ∃ r : TxRecord,
      dlookup tid (create_transaction store data createdAt lastModified).1 = some r ∧
      dlookup k r = dlookup k data := by
  rw [create_transaction_valid store data createdAt lastModified tid hval htid]
  refine ⟨_, dlookup_dinsert_self _ _ _, ?_⟩
  rw [dlookup_dinsert_ne _ _ hlm, dlookup_dinsert_ne _ _ hca]

/-- Extra-field payload for the C8 witness. -/
def w8data : TxRecord :=
  [("transaction_id", .str "TXN088"), ("amount", .num 7),
   ("timestamp", .str "t8"), ("status", .str "pending"), ("note", .str "extra")]

/-- C8 witness: the extra field `note` of a concrete payload survives
creation verbatim. -/
theorem claim_C8_extra_fields_witness :
    ∃ r : TxRecord,
      dlookup (JVal.str "TXN088") (create_transaction [] w8data "c8" "m8").1 = some r ∧
      dlookup "note" r = dlookup "note" w8data :=
  claim_C8_extra_fields [] w8data "c8" "m8" (JVal.str "TXN088") "note"
    (by decide) (by decide) (by decide) (by decide)

/-- C9: creating with a `transaction_id` already in the store returns 201,
replaces the prior record with the new payload merged with the fresh
server timestamps, and leaves the record count unchanged. -/
theorem claim_C9_overwrite (store : Store) (data : TxRecord)
    (createdAt lastModified : String) (tid : JVal)
    (hval : validate_compliance_data data = true)
    (htid : dlookup "transaction_id" data = some tid)
    (hmem : dcontains tid store = true) :
    (create_transaction store data createdAt lastModified).2.status = 201 ∧
    (create_transaction store data createdAt lastModified).1.length = store.length ∧
    dlookup tid (create_transaction store data createdAt lastModified).1 =
      some (dinsert "last_modified" (.str lastModified)
        (dinsert "created_at" (.str createdAt) data)) := by
  rw [create_transaction_valid store data createdAt lastModified tid hval htid]
  exact ⟨rfl, length_dinsert_of_contains _ _ _ hmem, dlookup_dinsert_self _ _ _⟩

/-- The record already stored under `TXN009` in the C9 witness. -/
def w9old : TxRecord := [("transaction_id", JVal.str "TXN009"), ("amount", JVal.num 1)]

/-- A one-record store for the C9 witness. -/
def w9store : Store := [(JVal.str "TXN009", w9old)]

/-- A valid payload reusing the id `TXN009` for the C9 witness. -/
def w9data : TxRecord :=
  [("transaction_id", .str "TXN009"), ("amount", .num 2),
   ("timestamp", .str "t9"), ("status", .str "compliant")]

/-- C9 witness: re-creating a concrete existing id keeps the count at 1 and
replaces the stored record. -/
theorem claim_C9_overwrite_witness :
    (create_transaction w9store w9data "c9" "m9").2.status = 201 ∧
    (create_transaction w9store w9data "c9" "m9").1.length = w9store.length ∧
    dlookup (JVal.str "TXN009") (create_transaction w9store w9data "c9" "m9").1 =
      some (dinsert "last_modified" (.str "m9") (dinsert "created_at" (.str "c9") w9data)) :=
  claim_C9_overwrite w9store w9data "c9" "m9" (JVal.str "TXN009")
    (by decide) (by decide) (by decide)

/-- A concrete payload with all four required fields for the C4 witness. -/
def w4data : TxRecord :=
  [("transaction_id", .str "TXN001"), ("amount", .num 1000),
   ("timestamp", .str "2025-01-29T10:00:00"), ("status", .str "compliant")]

/-- C4 witness: creating the concrete payload `w4data` returns 201 with its
id, and a get on that id returns the stored record with the submitted
`transaction_id` and `amount`. -/
theorem claim_C4_create_then_get_witness :
    (create_transaction [] w4data "c1" "m1").2 =
      ⟨201, .obj [("message", .str "Transaction created"), ("id", JVal.str "TXN001")]⟩ ∧
    ∃ r : TxRecord,
      get_transaction (create_transaction [] w4data "c1" "m1").1 (JVal.str "TXN001") =
        ((create_transaction [] w4data "c1" "m1").1, ⟨200, .obj r⟩) ∧
      dlookup "transaction_id" r = some (JVal.str "TXN001") ∧
      dlookup "amount" r = dlookup "amount" w4data :=
  claim_C4_create_then_get [] w4data "c1" "m1" (JVal.str "TXN001") (by decide) (by decide)

/-- A two-record store with distinct keys for the C6 witness. -/
def w6store : Store :=
  [(JVal.str "A", [("transaction_id", JVal.str "A")]),
   (JVal.str "B", [("transaction_id", JVal.str "B")])]

/-- C6 witness: deleting the concrete present id `A` returns 200 and leaves
only `B`; deleting an absent id returns 404. -/
theorem claim_C6_delete_witness :
    (dcontains (JVal.str "A") w6store = true →
      delete_transaction w6store (JVal.str "A") =
        (derase (JVal.str "A") w6store,
          ⟨200, .obj [("message", .str "Transaction deleted")]⟩) ∧
      (get_transaction (derase (JVal.str "A") w6store) (JVal.str "A")).2 =
        ⟨404, .obj [("error", .str "Transaction not found")]⟩ ∧
      ∀ k : JVal, k ≠ JVal.str "A" →
        dlookup k (derase (JVal.str "A") w6store) = dlookup k w6store) ∧
    (dcontains (JVal.str "A") w6store = false →
      delete_transaction w6store (JVal.str "A") =
        (w6store, ⟨404, .obj [("error", .str "Transaction not found")]⟩)) :=
  claim_C6_delete w6store (JVal.str "A") (by decide)

/-! ### Reachable stores (C10) -/

/-- A client-visible operation of the service (the transaction handlers). -/
inductive Op where
  | create (data : TxRecord) (createdAt lastModified : String)
  | get (transaction_id : JVal)
  | list
  | delete (transaction_id : JVal)
  | report (reportDate : String)

/-- The store after executing one operation. -/
def applyOp (store : Store) : Op → Store
  | .create data createdAt lastModified =>
    (create_transaction store data createdAt lastModified).1
  | .get tid => (get_transaction store tid).1
  | .list => (list_transactions store).1
  | .delete tid => (delete_transaction store tid).1
  | .report d => (compliance_report store d).1

/-- The store after a sequence of operations, starting from the empty
store the process begins with. -/
def runOps (ops : List Op) : Store :=
  ops.foldl applyOp []

/-- A store reachable from the empty store by some operation sequence. -/
def Reachable (store : Store) : Prop :=
  ∃ ops : List Op, runOps ops = store

/-- The per-record invariant: the six fields are present and the store key
equals the record's `transaction_id` field. -/
def RecordWF (k : JVal) (t : TxRecord) : Prop :=
  dcontains "transaction_id" t = true ∧ dcontains "amount" t = true ∧
  dcontains "timestamp" t = true ∧ dcontains "status" t = true ∧
  dcontains "created_at" t = true ∧ dcontains "last_modified" t = true ∧
  dlookup "transaction_id" t = some k

/-- The store invariant: every stored record is well formed. -/
def StoreWF (store : Store) : Prop :=
  ∀ (k : JVal) (t : TxRecord), (k, t) ∈ store → RecordWF k t

theorem get_transaction_fst (store : Store) (tid : JVal) :
    (get_transaction store tid).1 = store := by
  unfold get_transaction
  cases dlookup tid store <;> rfl

theorem mem_dinsert {κ α : Type} [DecidableEq κ] {k k₀ : κ} {t v : α}
    {d : List (κ × α)} (h : (k, t) ∈ dinsert k₀ v d) :
    (k = k₀ ∧ t = v) ∨ (k, t) ∈ d := by
  revert h
  induction d with
  | nil =>
    intro h
    simp only [dinsert] at h
    cases h with
    | head => exact Or.inl ⟨rfl, rfl⟩
    | tail _ h1 => cases h1
  | cons p rest ih =>
    obtain ⟨k₁, v₁⟩ := p
    intro h
    by_cases hk : k₁ = k₀
    · subst hk
      simp only [dinsert, if_pos rfl] at h
      cases h with
      | head => exact Or.inl ⟨rfl, rfl⟩
      | tail _ h1 => exact Or.inr (List.mem_cons_of_mem _ h1)
    · simp only [dinsert, if_neg hk] at h
      cases h with
      | head => exact Or.inr (List.mem_cons_self _ _)
      | tail _ h1 =>
        cases ih h1 with
        | inl h2 => exact Or.inl h2
        | inr h2 => exact Or.inr (List.mem_cons_of_mem _ h2)

theorem mem_derase {κ α : Type} [DecidableEq κ] {k k₀ : κ} {t : α}
    {d : List (κ × α)} (h : (k, t) ∈ derase k₀ d) : (k, t) ∈ d := by
  revert h
  induction d with
  | nil => exact fun h => h
  | cons p rest ih =>
    obtain ⟨k₁, v₁⟩ := p
    intro h
    by_cases hk : k₁ = k₀
    · subst hk
      simp only [derase, if_pos rfl] at h
      exact List.mem_cons_of_mem _ h
    · simp only [derase, if_neg hk] at h
      cases h with
      | head => exact List.mem_cons_self _ _
      | tail _ h1 => exact List.mem_cons_of_mem _ (ih h1)

/-- The record stored by a successful create is well formed. -/
theorem merged_record_WF (data : TxRecord) (createdAt lastModified : String)
    (tid : JVal) (hval : validate_compliance_data data = true)
    (htid : dlookup "transaction_id" data = some tid) :
    RecordWF tid (dinsert "last_modified" (.str lastModified)
      (dinsert "created_at" (.str createdAt) data)) := by
  obtain ⟨h1, h2, h3, h4⟩ := (validate_iff data).1 hval
  have hl : ∀ f : String, f ≠ "created_at" → f ≠ "last_modified" →
      dlookup f (dinsert "last_modified" (JVal.str lastModified)
        (dinsert "created_at" (JVal.str createdAt) data)) = dlookup f data := by
    intro f hfc hfm
    rw [dlookup_dinsert_ne _ _ hfm, dlookup_dinsert_ne _ _ hfc]
  refine ⟨?_, ?_, ?_, ?_, ?_, ?_, ?_⟩
  · show (dlookup _ _).isSome = true
    rw [hl _ (by decide) (by decide)]
    exact h1
  · show (dlookup _ _).isSome = true
    rw [hl _ (by decide) (by decide)]
    exact h2
  · show (dlookup _ _).isSome = true
    rw [hl _ (by decide) (by decide)]
    exact h3
  · show (dlookup _ _).isSome = true
    rw [hl _ (by decide) (by decide)]
    exact h4
  · show (dlookup _ _).isSome = true
    rw [dlookup_dinsert_ne _ _ (by decide), dlookup_dinsert_self]
    rfl
  · show (dlookup _ _).isSome = true
    rw [dlookup_dinsert_self]
    rfl
  · rw [hl _ (by decide) (by decide)]
    exact htid

theorem applyOp_preserves_WF (store : Store) (op : Op) (h : StoreWF store) :
    StoreWF (applyOp store op) := by
  cases op with
  | create data createdAt lastModified =>
    show StoreWF (create_transaction store data createdAt lastModified).1
    by_cases hval : validate_compliance_data data = true
    · obtain ⟨h1, _, _, _⟩ := (validate_iff data).1 hval
      obtain ⟨tid, htid⟩ : ∃ tid, dlookup "transaction_id" data = some tid := by
        cases hres : dlookup "transaction_id" data with
        | none => rw [dcontains, hres] at h1; cases h1
        | some w => exact ⟨w, rfl⟩
      rw [create_transaction_valid store data createdAt lastModified tid hval htid]
      intro k t hmem
      rcases mem_dinsert hmem with ⟨hk, ht⟩ | hmem'
      · subst hk
        subst ht
        exact merged_record_WF data createdAt lastModified _ hval htid
      · exact h k t hmem'
    · have hv' : validate_compliance_data data = false := by
        cases hb : validate_compliance_data data with
        | false => rfl
        | true => exact absurd hb hval
      have : create_transaction store data createdAt lastModified =
          (store, ⟨400, .obj [("error", .str "Invalid data format")]⟩) := by
        simp [create_transaction, hv']
      rw [this]
      exact h
  | get tid =>
    show StoreWF (get_transaction store tid).1
    rw [get_transaction_fst]
    exact h
  | list => exact h
  | delete tid =>
    show StoreWF (delete_transaction store tid).1
    unfold delete_transaction
    by_cases hmem : dcontains tid store = true
    · rw [if_pos hmem]
      intro k t hkt
      exact h k t (mem_derase hkt)
    · rw [if_neg hmem]
      exact h
  | report d => exact h

/-- Every reachable store satisfies the invariant. -/
theorem runOps_WF (ops : List Op) : StoreWF (runOps ops) := by
  suffices h : ∀ s : Store, StoreWF s → StoreWF (ops.foldl applyOp s) by
    refine h [] ?_
    intro k t hkt
    cases hkt
  induction ops with
  | nil => intro s hs; exact hs
  | cons op rest ih =>
    intro s hs
    exact ih (applyOp s op) (applyOp_preserves_WF s op hs)

/-- In a well-formed store every record has a `status` field. -/
theorem StoreWF_status_some {store : Store} (h : StoreWF store) {t : TxRecord}
    (ht : t ∈ dvalues store) : ∃ w : JVal, dlookup "status" t = some w := by
  obtain ⟨⟨k, t'⟩, hmem, rfl⟩ := List.mem_map.1 ht
  have hs := (h k t' hmem).2.2.2.1
  rw [dcontains] at hs
  cases hres : dlookup "status" t' with
  | none => rw [hres] at hs; cases hs
  | some w => exact ⟨w, rfl⟩

/-- One operation reaching a store whose `"unknown"` bucket is populated:
a record whose `status` field is literally the string `"unknown"`. -/
def c10ops : List Op :=
  [.create [("transaction_id", .str "U1"), ("amount", .num 1),
    ("timestamp", .str "2025-01-29T10:00:00"), ("status", .str "unknown")]
    "c10" "m10"]

/-- C10 fails as stated: a reachable store can populate the report's
`"unknown"` bucket, through a record whose `status` value is the string
`"unknown"` (not through a missing `status` field). -/
theorem claim_C10_counterexample :
    Reachable (runOps c10ops) ∧
    dget (JVal.str "unknown") 0 (status_breakdown (runOps c10ops)) = 1 :=
  ⟨⟨c10ops, rfl⟩, by decide⟩

/-- C10 amended: in every reachable store, every record contains the keys
`transaction_id`, `amount`, `timestamp`, `status`, `created_at` and
`last_modified`, and each store key equals the record's `transaction_id`
field; consequently the report's `"unknown"` bucket counts exactly the
records whose `status` field is the string `"unknown"` — it is never
populated by a record lacking a `status` field. -/
theorem claim_C10_invariant (store : Store) (h : Reachable store) :
    StoreWF store ∧
    dget (JVal.str "unknown") 0 (status_breakdown store) =
      ((dvalues store).filter
        (fun t => dlookup "status" t = some (JVal.str "unknown"))).length := by
  obtain ⟨ops, rfl⟩ := h
  have hwf : StoreWF (runOps ops) := runOps_WF ops
  refine ⟨hwf, ?_⟩
  rw [dget_status_breakdown]
  congr 1
  apply List.filter_congr
  intro t ht
  obtain ⟨w, hw⟩ := StoreWF_status_some hwf ht
  apply decide_eq_decide.mpr
  unfold status_of dget
  rw [hw]
  simp

/-- C10 witness: the amended invariant evaluated on the concrete reachable
store produced by `c10ops`. -/
theorem claim_C10_invariant_witness :
    StoreWF (runOps c10ops) ∧
    dget (JVal.str "unknown") 0 (status_breakdown (runOps c10ops)) =
      ((dvalues (runOps c10ops)).filter
        (fun t => dlookup "status" t = some (JVal.str "unknown"))).length :=
  claim_C10_invariant (runOps c10ops) ⟨c10ops, rfl⟩

end ComplianceApp
